import Mathlib

/-
Shallow embedding of the L-system rewriting engine in LSystems.py
(rubengerritsen/L-systems), together with theorems settling the
specification claims about it.

Conventions of the embedding:
- Python floats are modelled as rationals (none of the verified behaviour
  depends on floating-point rounding).
- Python dictionaries built with dict(zip(keys, values)) are modelled as
  the truncating zip of the two lists, looked up with last-entry-wins
  semantics (later pairs overwrite earlier ones, as in Python).
- Fallible Python code (exceptions: undefined variable from the expression
  evaluator, IndexError, AttributeError on None, float() ValueError) is
  modelled with Except Err.
- findRightContext can fall off the end of its loop without executing a
  return statement, in which case Python returns None; its embedding
  therefore returns Option Module, with none for that fall-through and
  some m for every explicit return.
-/

set_option autoImplicit false

namespace LSys

/-- Error values standing for the Python exceptions the engine can raise. -/
inductive Err where
  /-- py_expression_eval raises on an identifier missing from the binding. -/
  | undefinedVar (name : String)
  /-- float() ValueError or an unparsable rule/expression string. -/
  | parseError (s : String)
  /-- IndexError / UnboundLocalError from list indexing. -/
  | indexError
  /-- AttributeError from accessing a field of Python None. -/
  | noneType
  /-- TypeError from a value of an unexpected shape. -/
  | typeError
  deriving DecidableEq, Repr

/-- A module of the current word: a symbol with numeric parameters
(class Module with numeric param, LSystems.py lines 50-60). -/
structure Module where
  symbol : String
  param : List Rat
  deriving DecidableEq, Repr

/-- A pattern module: a symbol with formal-name parameters, as produced by
stringToSymMod (LSystems.py lines 232-249). -/
structure SymMod where
  symbol : String
  param : List String
  deriving DecidableEq, Repr

/-- Expression trees of the py_expression_eval dependency, as used in rule
conditions and successor parameter slots.  Comparisons return 1 or 0. -/
inductive Expr where
  | const (v : Rat)
  | var (name : String)
  | add (a b : Expr)
  | sub (a b : Expr)
  | mul (a b : Expr)
  | lt (a b : Expr)
  | gt (a b : Expr)
  | eq (a b : Expr)
  deriving DecidableEq, Repr

/-- A successor-template module: a symbol with expression parameters, as
produced by stringToSymModWithExpr (LSystems.py lines 251-269). -/
structure ExprMod where
  symbol : String
  param : List Expr
  deriving DecidableEq, Repr

/-- The successor field of a Rule: a flat list of template modules for a
non-stochastic rule, or a list of alternatives for a stochastic one
(LSystems.py line 81). -/
inductive Successor where
  | single (mods : List ExprMod)
  | multi (alts : List (List ExprMod))
  deriving DecidableEq, Repr

/-- Rule kinds TYPE_OL = 0, TYPE_L1L = 1, TYPE_R1L = 2, TYPE_2L = 3
(LSystems.py lines 72-75). -/
inductive RuleType where
  | OL
  | L1L
  | R1L
  | TwoL
  deriving DecidableEq, Repr

/-- A production rule (class Rule, LSystems.py lines 63-90).  The condition
is none when the condition string was empty. -/
structure Rule where
  ruleType : RuleType
  predecessorSymbol : String
  symParam : List String
  left_context : SymMod
  right_context : SymMod
  condition : Option Expr
  successor : Successor
  probs : List Rat
  deriving DecidableEq, Repr

/-- self.isStochastic = (probs != []) (LSystems.py line 84). -/
def Rule.isStochastic (r : Rule) : Bool :=
  !r.probs.isEmpty

/-- dict(zip(keys, values)): the truncating element-wise pairing. -/
def pyDict (keys : List String) (values : List Rat) : List (String × Rat) :=
  List.zip keys values

/-- Lookup in a Python dict built from an association list: the last pair
with the key wins, because later insertions overwrite earlier ones. -/
def dictGet (d : List (String × Rat)) (k : String) : Option Rat :=
  d.reverse.lookup k

/-- Evaluation of an expression tree against a binding, modelling
py_expression_eval's evaluate: an identifier absent from the binding
raises (here: Err.undefinedVar). -/
def Expr.evaluate : Expr → List (String × Rat) → Except Err Rat
  | .const v, _ => .ok v
  | .var n, d =>
      match dictGet d n with
      | some v => .ok v
      | none => .error (.undefinedVar n)
  | .add a b, d => do pure ((← a.evaluate d) + (← b.evaluate d))
  | .sub a b, d => do pure ((← a.evaluate d) - (← b.evaluate d))
  | .mul a b, d => do pure ((← a.evaluate d) * (← b.evaluate d))
  | .lt a b, d => do pure (if (← a.evaluate d) < (← b.evaluate d) then 1 else 0)
  | .gt a b, d => do pure (if (← b.evaluate d) < (← a.evaluate d) then 1 else 0)
  | .eq a b, d => do pure (if (← a.evaluate d) = (← b.evaluate d) then 1 else 0)

/-- The keys/values pair assembled by rule kind, shared verbatim by
Rule.checkCondition (lines 97-108) and Rule.getReplacement (lines 157-168).
Accessing the params of a None right context raises AttributeError. -/
def contextBinding (r : Rule) (left_context mod : Module)
    (right_context : Option Module) : Except Err (List String × List Rat) :=
  match r.ruleType with
  | .OL => .ok (r.symParam, mod.param)
  | .L1L => .ok (r.left_context.param ++ r.symParam,
                 left_context.param ++ mod.param)
  | .R1L =>
      match right_context with
      | some rcm => .ok (r.symParam ++ r.right_context.param,
                         mod.param ++ rcm.param)
      | none => .error .noneType
  | .TwoL =>
      match right_context with
      | some rcm => .ok (r.left_context.param ++ r.symParam ++ r.right_context.param,
                         left_context.param ++ mod.param ++ rcm.param)
      | none => .error .noneType

/-- Rule.checkCondition (LSystems.py lines 92-110): an absent condition is
true; otherwise the condition is evaluated under dict(zip(keys, values))
and Python truth-tests the result (nonzero is true). -/
def Rule.checkCondition (r : Rule) (left_context mod : Module)
    (right_context : Option Module) : Except Err Bool :=
  match r.condition with
  | none => .ok true
  | some c => do
      let kv ← contextBinding r left_context mod right_context
      let v ← c.evaluate (pyDict kv.1 kv.2)
      pure (v != 0)

/-- Rule.isApplicable (LSystems.py lines 113-137).  The predecessor symbol
is compared first; then, for context rules, Python evaluates
checkCondition(...) and right/left symbol comparisons left to right with
short-circuiting, so the condition runs before the context-symbol tests
and a None right context is only dereferenced if the condition was true. -/
def Rule.isApplicable (r : Rule) (left_context mod : Module)
    (right_context : Option Module) : Except Err Bool :=
  if r.predecessorSymbol ≠ mod.symbol then .ok false
  else
    match r.ruleType with
    | .OL => r.checkCondition left_context mod right_context
    | .L1L => do
        let c ← r.checkCondition left_context mod right_context
        pure (c && (r.left_context.symbol == left_context.symbol))
    | .R1L => do
        let c ← r.checkCondition left_context mod right_context
        if c then
          match right_context with
          | some rcm => pure (r.right_context.symbol == rcm.symbol)
          | none => .error .noneType
        else pure false
    | .TwoL => do
        let c ← r.checkCondition left_context mod right_context
        if c then
          match right_context with
          | some rcm => pure (r.right_context.symbol == rcm.symbol
                              && r.left_context.symbol == left_context.symbol)
          | none => .error .noneType
        else pure false

/-- The stochastic selection loop of getReplacement (lines 144-150): walk
the probability list accumulating a cumulative sum and pick the first
index whose cumulative sum strictly exceeds the drawn value; none when the
loop ends without a break (Python then hits UnboundLocalError). -/
def chooseIndexAux : List Rat → Rat → Rat → Nat → Option Nat
  | [], _, _, _ => none
  | p :: ps, choice, cumulative, i =>
      if cumulative + p > choice then some i
      else chooseIndexAux ps choice (cumulative + p) (i + 1)

/-- chooseIndex probs choice: index selected by the cumulative scan. -/
def chooseIndex (probs : List Rat) (choice : Rat) : Option Nat :=
  chooseIndexAux probs choice 0 0

/-- Evaluation of a list of parameter expressions under one binding
(the inner loop of getReplacement, lines 173-176). -/
def evalParams : List Expr → List (String × Rat) → Except Err (List Rat)
  | [], _ => .ok []
  | e :: es, d => do
      let v ← e.evaluate d
      let vs ← evalParams es d
      pure (v :: vs)

/-- The per-template-module loop of getReplacement (lines 155-178): for
each template module rebuild the binding, append the global definitions
after the positional pairs when definitions is nonempty, evaluate every
parameter expression, and emit the resulting module. -/
def evalSuccessor (r : Rule) (left_context mod : Module)
    (right_context : Option Module) (definitions : List (String × Rat)) :
    List ExprMod → Except Err (List Module)
  | [] => .ok []
  | elem :: rest => do
      let kv ← contextBinding r left_context mod right_context
      let kv2 :=
        if definitions.isEmpty then kv
        else (kv.1 ++ definitions.map Prod.fst, kv.2 ++ definitions.map Prod.snd)
      let params ← evalParams elem.param (pyDict kv2.1 kv2.2)
      let tail ← evalSuccessor r left_context mod right_context definitions rest
      pure (Module.mk elem.symbol params :: tail)

/-- Rule.getReplacement (LSystems.py lines 140-179).  rand is the value
the call random() returned for this application (only consulted when the
rule is stochastic). -/
def Rule.getReplacement (r : Rule) (left_context mod : Module)
    (right_context : Option Module) (definitions : List (String × Rat))
    (rand : Rat) : Except Err (List Module) := do
  let currentRule ←
    if r.isStochastic then
      match chooseIndex r.probs rand with
      | none => Except.error Err.indexError
      | some i =>
          match r.successor with
          | .multi alts =>
              match alts.get? i with
              | some alt => Except.ok alt
              | none => Except.error Err.indexError
          | .single _ => Except.error Err.typeError
    else
      match r.successor with
      | .single mods => Except.ok mods
      | .multi _ => Except.error Err.typeError
  evalSuccessor r left_context mod right_context definitions currentRule

/-- emptyModule() (LSystems.py lines 412-414). -/
def emptyModule : Module :=
  ⟨"", []⟩

/-- The empty module used in the pattern slots of context-free sides. -/
def emptySymMod : SymMod :=
  ⟨"", []⟩

/-- The loop of findLeftContext (LSystems.py lines 336-355), scanning
indices c-1, c-2, ..., 0.  An ignored symbol is skipped by continue,
which also skips the clearing of firstPass. -/
def findLeftAux (tree : List Module) (ignore : List String) :
    Nat → Nat → Nat → Bool → Module
  | 0, _, _, _ => emptyModule
  | c + 1, closes, opens, firstPass =>
      let m := tree.getD c emptyModule
      if m.symbol ∈ ignore then
        findLeftAux tree ignore c closes opens firstPass
      else if m.symbol = "[" then
        findLeftAux tree ignore c closes (if firstPass then opens else opens + 1) false
      else if m.symbol = "]" then
        findLeftAux tree ignore c (closes + 1) opens false
      else if closes = opens then m
      else findLeftAux tree ignore c closes opens false

/-- findLeftContext (LSystems.py lines 336-355). -/
def findLeftContext (tree : List Module) (start : Nat) (ignore : List String) :
    Module :=
  findLeftAux tree ignore start 0 0 true

/-- The loop of findRightContext (LSystems.py lines 357-385), scanning n
indices starting at i.  The bracket-opening branch assigns
opens := closes + 1 exactly as line 380 does.  Exhausting the loop falls
off the function, which in Python returns None. -/
def findRightAux (tree : List Module) (ignore : List String) :
    Nat → Nat → Nat → Nat → Bool → Option Module
  | 0, _, _, _, _ => none
  | n + 1, i, closes, opens, firstPass =>
      let m := tree.getD i emptyModule
      if m.symbol ∈ ignore then
        findRightAux tree ignore n (i + 1) closes opens firstPass
      else if m.symbol = "]" then
        if firstPass then some emptyModule
        else findRightAux tree ignore n (i + 1) (closes + 1) opens false
      else if m.symbol = "[" then
        findRightAux tree ignore n (i + 1) closes (closes + 1) false
      else if opens = closes then some m
      else findRightAux tree ignore n (i + 1) closes opens false

/-- findRightContext (LSystems.py lines 357-385): scans start+1 .. len-1
when start+1 < len, otherwise returns the empty module. -/
def findRightContext (tree : List Module) (start : Nat) (ignore : List String) :
    Option Module :=
  if start + 1 < tree.length then
    findRightAux tree ignore (tree.length - (start + 1)) (start + 1) 0 0 true
  else some emptyModule

/-- The inner rule-table loop of nextGeneration (lines 198-202): find the
first rule whose isApplicable is true; errors from isApplicable propagate. -/
def findApplicableRule : List Rule → Module → Module → Option Module →
    Except Err (Option Rule)
  | [], _, _, _ => .ok none
  | r :: rs, lc, mod, rc => do
      let b ← r.isApplicable lc mod rc
      if b then pure (some r) else findApplicableRule rs lc mod rc

/-- The L-system state (class LSystem, LSystems.py lines 181-206). -/
structure LSystem where
  word : List Module
  productionRules : List Rule
  ignore : List String
  definitions : List (String × Rat)
  deriving DecidableEq, Repr

/-- The position loop of nextGeneration (LSystems.py lines 192-204):
process n positions starting at index i against the unmodified input word.
rng gives the successive values of random(); k counts how many draws have
been consumed, advancing only when a stochastic rule fires. -/
def nextGenAux (rules : List Rule) (defs : List (String × Rat))
    (ignore : List String) (word : List Module) (rng : Nat → Rat) :
    Nat → Nat → Nat → Except Err (List Module)
  | _, _, 0 => .ok []
  | i, k, n + 1 => do
      let mod := word.getD i emptyModule
      let lc := findLeftContext word i ignore
      let rc := findRightContext word i ignore
      let ro ← findApplicableRule rules lc mod rc
      match ro with
      | some r => do
          let rep ← r.getReplacement lc mod rc defs (rng k)
          let rest ← nextGenAux rules defs ignore word rng (i + 1)
                       (if r.isStochastic then k + 1 else k) n
          pure (rep ++ rest)
      | none => do
          let rest ← nextGenAux rules defs ignore word rng (i + 1) k n
          pure (mod :: rest)

/-- LSystem.nextGeneration (LSystems.py lines 190-206).  Python assigns
self.word = new_word only after the whole loop has finished, so on an
error the state object is returned unchanged; on success the word field is
replaced by the freshly built word. -/
def nextGeneration (sys : LSystem) (rng : Nat → Rat) :
    Except Err (List Module) × LSystem :=
  match nextGenAux sys.productionRules sys.definitions sys.ignore sys.word rng
          0 0 sys.word.length with
  | .ok w => (.ok w, { sys with word := w })
  | .error e => (.error e, sys)

/-- Python str.strip(): drop whitespace from both ends. -/
def trimChars (l : List Char) : List Char :=
  ((l.dropWhile Char.isWhitespace).reverse.dropWhile Char.isWhitespace).reverse

/-- Python str.split(sep) for a single-character separator: split at every
occurrence, keeping empty pieces. -/
def splitChar (sep : Char) : List Char → List (List Char)
  | [] => [[]]
  | c :: cs =>
      if c = sep then [] :: splitChar sep cs
      else
        match splitChar sep cs with
        | h :: t => (c :: h) :: t
        | [] => [[c]]

/-- Python re.split over a one-character-class-plus pattern such as
re.split of the class holding question mark and colon: split at every
maximal run of delimiter characters, keeping the (possibly empty) pieces
at the two ends. -/
def splitRuns (p : Char → Bool) : List Char → List (List Char)
  | [] => [[]]
  | c :: cs =>
      let r := splitRuns p cs
      if p c then
        match cs with
        | [] => [] :: r
        | d :: _ => if p d then r else [] :: r
      else
        match r with
        | h :: t => (c :: h) :: t
        | [] => [[c]]

/-- Accumulate the value of a digit string; none on a non-digit. -/
def digitsValAux : List Char → Nat → Option Nat
  | [], acc => some acc
  | c :: cs, acc =>
      if c.isDigit then digitsValAux cs (acc * 10 + (c.toNat - 48))
      else none

/-- Python float() on a stripped string, restricted to plain decimal
notation (optional sign, integer part, optional fraction part); none
models the ValueError on anything else. -/
def parseFloat (l : List Char) : Option Rat :=
  match l with
  | [] => none
  | _ =>
      let sb : Rat × List Char :=
        match l with
        | '-' :: rest => (-1, rest)
        | '+' :: rest => (1, rest)
        | _ => (1, l)
      match splitChar '.' sb.2 with
      | [ip] =>
          if ip.isEmpty then none
          else (digitsValAux ip 0).map (fun n => sb.1 * n)
      | [ip, fp] =>
          if ip.isEmpty && fp.isEmpty then none
          else
            match digitsValAux ip 0, digitsValAux fp 0 with
            | some a, some b =>
                some (sb.1 * ((a : Rat) + (b : Rat) / ((10 : Rat) ^ fp.length)))
            | _, _ => none
      | _ => none

/-- Characters py_expression_eval accepts in an identifier. -/
def isIdentChar (c : Char) : Bool :=
  c.isAlpha || c.isDigit || c = '_'

/-- Modelled from the spec: the parse operation of the external
py_expression_eval dependency (spec section 4.A), which is not part of this
repository.  Only the fragment the repository exercises in the verified
scenarios is modelled: a numeric literal parses to a constant, an
identifier to a variable reference, anything else is a ParseError. -/
def parseExpr (l : List Char) : Except Err Expr :=
  let s := trimChars l
  match parseFloat s with
  | some v => .ok (.const v)
  | none =>
      if !s.isEmpty && s.all isIdentChar then .ok (.var (String.mk s))
      else .error (.parseError (String.mk s))

/-- The parameter loop of stringToMod (lines 225-227): strip each piece
and convert with float(). -/
def parseFloatList : List (List Char) → Except Err (List Rat)
  | [] => .ok []
  | p :: ps => do
      match parseFloat (trimChars p) with
      | some v => do
          let vs ← parseFloatList ps
          pure (v :: vs)
      | none => Except.error (Err.parseError (String.mk p))

/-- stringToMod (LSystems.py lines 213-230): strip, read the symbol up to
an opening parenthesis, then split the slice up to the last character on
commas and convert each piece with float(). -/
def stringToModChars (l : List Char) : Except Err Module :=
  let s := trimChars l
  let symbol := s.takeWhile (· ≠ '(')
  let rest := s.dropWhile (· ≠ '(')
  match rest with
  | [] => .ok ⟨String.mk symbol, []⟩
  | _ :: _ => do
      let inner := (rest.drop 1).dropLast
      let params ← parseFloatList (splitChar ',' inner)
      pure ⟨String.mk symbol, params⟩

/-- stringToSymMod (LSystems.py lines 232-249): as stringToMod but the
parameters stay symbolic (each piece merely stripped). -/
def stringToSymModChars (l : List Char) : SymMod :=
  let s := trimChars l
  let symbol := s.takeWhile (· ≠ '(')
  let rest := s.dropWhile (· ≠ '(')
  match rest with
  | [] => ⟨String.mk symbol, []⟩
  | _ :: _ =>
      let inner := (rest.drop 1).dropLast
      ⟨String.mk symbol, (splitChar ',' inner).map (fun p => String.mk (trimChars p))⟩

/-- The parameter loop of stringToSymModWithExpr (lines 264-266). -/
def parseExprParams : List (List Char) → Except Err (List Expr)
  | [] => .ok []
  | p :: ps => do
      let e ← parseExpr p
      let es ← parseExprParams ps
      pure (e :: es)

/-- stringToSymModWithExpr (LSystems.py lines 251-269): as stringToMod but
each parameter piece is parsed to an expression tree. -/
def stringToExprModChars (l : List Char) : Except Err ExprMod :=
  let s := trimChars l
  let symbol := s.takeWhile (· ≠ '(')
  let rest := s.dropWhile (· ≠ '(')
  match rest with
  | [] => .ok ⟨String.mk symbol, []⟩
  | _ :: _ => do
      let inner := (rest.drop 1).dropLast
      let params ← parseExprParams (splitChar ',' inner)
      pure ⟨String.mk symbol, params⟩

/-- stringToPredecessor (LSystems.py lines 271-290): split on runs of the
context markers and classify by piece count; the error prints of the
source become parse errors (the caller would crash unpacking them). -/
def stringToPredecessor (l : List Char) :
    Except Err (RuleType × SymMod × SymMod × SymMod) :=
  match splitRuns (fun c => c == '<' || c == '>') l with
  | [a, b, c] =>
      .ok (.TwoL, stringToSymModChars a, stringToSymModChars b, stringToSymModChars c)
  | [a, b] =>
      if l.contains '<' then
        .ok (.L1L, stringToSymModChars a, stringToSymModChars b, emptySymMod)
      else if l.contains '>' then
        .ok (.R1L, emptySymMod, stringToSymModChars a, stringToSymModChars b)
      else .error (.parseError (String.mk l))
  | [a] => .ok (.OL, emptySymMod, stringToSymModChars a, emptySymMod)
  | _ => .error (.parseError (String.mk l))

/-- The module loop shared by the successor branches of stringToSuccessor
(lines 296-298 and 308-310): strip each space-separated piece and parse it
as a template module. -/
def parseExprModList : List (List Char) → Except Err (List ExprMod)
  | [] => .ok []
  | m :: ms => do
      let em ← stringToExprModChars (trimChars m)
      let rest ← parseExprModList ms
      pure (em :: rest)

/-- Elements at even indices (Python slice with step 2 from 0). -/
def evens {α : Type} : List α → List α
  | [] => []
  | [x] => [x]
  | x :: _ :: xs => x :: evens xs

/-- Elements at odd indices (Python slice with step 2 from 1). -/
def odds {α : Type} (l : List α) : List α :=
  evens (l.drop 1)

/-- The stochastic pairing loop of stringToSuccessor (lines 306-311):
rules at index i for each probability; running out of rule pieces is the
IndexError Python would raise. -/
def buildSuccessors : List Rat → List (List Char) → Except Err (List (List ExprMod))
  | [], _ => .ok []
  | _ :: ps, rs =>
      match rs with
      | [] => .error .indexError
      | r :: rs2 => do
          let mods ← parseExprModList (splitChar ' ' r)
          let rest ← buildSuccessors ps rs2
          pure (mods :: rest)

/-- stringToSuccessor (LSystems.py lines 292-312): without a semicolon a
single space-separated successor with empty probability list; with
semicolons, probabilities at even pieces and successor sequences at odd
pieces. -/
def stringToSuccessor (l : List Char) : Except Err (List Rat × Successor) :=
  if !l.contains ';' then do
    let mods ← parseExprModList (splitChar ' ' l)
    pure ([], .single mods)
  else do
    let parts := splitChar ';' l
    let probs ← parseFloatList (evens parts)
    let succs ← buildSuccessors probs (odds parts)
    pure (probs, .multi succs)

/-- stringToRule (LSystems.py lines 322-331) combined with the Rule
constructor (lines 70-90): split on runs of question mark and colon; two
pieces mean no condition, at least three mean the second piece is the
condition string (parsed when nonempty) and the third the successor; a
single piece indexes past the end (IndexError). -/
def stringToRuleChars (l : List Char) : Except Err Rule :=
  match splitRuns (fun c => c == '?' || c == ':') l with
  | [p, s] => do
      let pre ← stringToPredecessor p
      let ps ← stringToSuccessor s
      pure { ruleType := pre.1, predecessorSymbol := pre.2.2.1.symbol,
             symParam := pre.2.2.1.param, left_context := pre.2.1,
             right_context := pre.2.2.2, condition := none,
             successor := ps.2, probs := ps.1 }
  | p :: c :: s :: _ => do
      let pre ← stringToPredecessor p
      let cond ← if c.isEmpty then pure none else (parseExpr c).map some
      let ps ← stringToSuccessor s
      pure { ruleType := pre.1, predecessorSymbol := pre.2.2.1.symbol,
             symParam := pre.2.2.1.param, left_context := pre.2.1,
             right_context := pre.2.2.2, condition := cond,
             successor := ps.2, probs := ps.1 }
  | _ => .error .indexError

/-- The module loop of stringToAxiom (lines 317-319). -/
def parseModList : List (List Char) → Except Err (List Module)
  | [] => .ok []
  | m :: ms => do
      let md ← stringToModChars (trimChars m)
      let rest ← parseModList ms
      pure (md :: rest)

/-- stringToAxiom (LSystems.py lines 314-320): split the axiom on spaces
and parse every piece as a module with numeric parameters. -/
def stringToAxiom (s : String) : Except Err (List Module) :=
  parseModList (splitChar ' ' s.toList)

/-- stringToRule on a String. -/
def stringToRule (s : String) : Except Err Rule :=
  stringToRuleChars s.toList

/-- The production-list loop of the LSystem constructor (lines 185-186). -/
def parseRules : List String → Except Err (List Rule)
  | [] => .ok []
  | s :: ss => do
      let r ← stringToRule s
      let rs ← parseRules ss
      pure (r :: rs)

/-- The LSystem constructor (LSystems.py lines 182-188): parse the axiom
and every production rule, and record the ignore list and definitions. -/
def mkLSystem (axiomStr : String) (productions : List String)
    (ignore : List String) (definitions : List (String × Rat)) :
    Except Err LSystem := do
  let word ← stringToAxiom axiomStr
  let rules ← parseRules productions
  pure ⟨word, rules, ignore, definitions⟩

/-
Reduction lemmas for the Except monad plumbing used by the engine.
-/

@[simp]
theorem exceptBind_ok {α β : Type} (a : α) (f : α → Except Err β) :
    (Except.ok a : Except Err α) >>= f = f a := rfl

@[simp]
theorem exceptBind_error {α β : Type} (e : Err) (f : α → Except Err β) :
    (Except.error e : Except Err α) >>= f = Except.error e := rfl

@[simp]
theorem exceptPure_eq {α : Type} (a : α) :
    (pure a : Except Err α) = Except.ok a := rfl

/-
Claim C2.  The right-context scan that visits every index without finding
a context module: the loop of findRightContext ends without executing any
return statement, so the Python function returns None, not the empty
module the claim (and spec) state.  Concrete failing input: the word
"F +", position 0, ignore set containing "+": the single scanned module
is ignored, the loop exhausts, and the function returns None.
-/

/-- Claim C2 (code_bug evidence): on the word F + with position 0 and
ignore set containing +, the right-context scan visits every remaining
index without finding a context module, and findRightContext returns
Python None (here: none) — not the empty module the claim states. -/
theorem C2_scan_exhausted_returns_none :
    findRightContext [⟨"F", []⟩, ⟨"+", []⟩] 0 ["+"] = none ∧
    (none : Option Module) ≠ some emptyModule := by
  exact ⟨rfl, by decide⟩

/-
Claim C3.  Line 380 of LSystems.py assigns opens := closes + 1 instead of
incrementing opens, so a second, nested opening bracket does not deepen
the skip level.  On the claim's own example word A [ [ B ] C ] D, scanning
right from position 0, the module C at index 5 lies inside the side branch
opened at index 1, yet it is returned as right context.
-/

/-- The claim's example word A [ [ B ] C ] D. -/
def c3Word : List Module :=
  [⟨"A", []⟩, ⟨"[", []⟩, ⟨"[", []⟩, ⟨"B", []⟩, ⟨"]", []⟩, ⟨"C", []⟩, ⟨"]", []⟩, ⟨"D", []⟩]

/-- Claim C3 (code_bug evidence): on A [ [ B ] C ] D at position 0 with an
empty ignore set, findRightContext returns the module C — the module at
index 5, which is inside the side branch opened by the bracket at index 1
— because the bracket branch sets opens to closes + 1 rather than
incrementing it. -/
theorem C3_returns_module_inside_side_branch :
    findRightContext c3Word 0 [] = some ⟨"C", []⟩ ∧
    c3Word.getD 5 emptyModule = ⟨"C", []⟩ := by
  exact ⟨rfl, rfl⟩

/-
Claim C8.  The Koch-snowflake scenario, run end to end through the string
parsers and the derivation engine.
-/

/-- Claim C8: constructing the L-system from axiom F + + F + + F and the
single rule F?F - F + + F - F with empty ignore set, one call of
nextGeneration yields exactly the 28-module word in which every F is
replaced by the successor and every + and - is copied unchanged. -/
theorem C8_koch_one_generation :
    (mkLSystem "F + + F + + F" ["F?F - F + + F - F"] [] []).bind
        (fun sys => (nextGeneration sys (fun _ => 0)).1) =
      Except.ok
        [⟨"F", []⟩, ⟨"-", []⟩, ⟨"F", []⟩, ⟨"+", []⟩, ⟨"+", []⟩, ⟨"F", []⟩, ⟨"-", []⟩, ⟨"F", []⟩,
         ⟨"+", []⟩, ⟨"+", []⟩,
         ⟨"F", []⟩, ⟨"-", []⟩, ⟨"F", []⟩, ⟨"+", []⟩, ⟨"+", []⟩, ⟨"F", []⟩, ⟨"-", []⟩, ⟨"F", []⟩,
         ⟨"+", []⟩, ⟨"+", []⟩,
         ⟨"F", []⟩, ⟨"-", []⟩, ⟨"F", []⟩, ⟨"+", []⟩, ⟨"+", []⟩, ⟨"F", []⟩, ⟨"-", []⟩, ⟨"F", []⟩] := by
  rfl

/-
Claim C1.  getReplacement builds dict(zip(keys, values)) with the global
definitions appended after the positional pairs; a Python dict keeps the
last value written for a duplicate key, so a definition of the same name
shadows the positional formal-parameter value — the opposite of the
claim, which says the positional value shadows the definition.
-/

/-- A context-free rule with one formal parameter x whose successor emits
the value of x. -/
def c1Rule : Rule :=
  { ruleType := .OL, predecessorSymbol := "A", symParam := ["x"],
    left_context := emptySymMod, right_context := emptySymMod,
    condition := none, successor := .single [⟨"A", [.var "x"]⟩], probs := [] }

/-- Claim C1 counterexample: with formal parameter x bound positionally to
1 and a global definition x = 5, getReplacement evaluates the successor
parameter x to 5 (the definition's value), not to the positional value 1
the claim predicts. -/
theorem C1_counterexample :
    Rule.getReplacement c1Rule emptyModule ⟨"A", [1]⟩ (some emptyModule) [("x", 5)] 0 =
      Except.ok [⟨"A", [(5 : Rat)]⟩] ∧
    (Except.ok [Module.mk "A" [(5 : Rat)]] : Except Err (List Module)) ≠
      Except.ok [Module.mk "A" [(1 : Rat)]] := by
  refine ⟨rfl, ?_⟩
  intro h
  simp at h

/-- Claim C1 as amended: the global definitions are appended to the
binding after the positional pairs, and because a Python dict keeps the
last value written for a key, a definition whose name coincides with a
formal parameter shadows the positional value: for every name x,
positional value a and definition value d, the successor parameter x
evaluates to d. -/
theorem C1_amended_definition_shadows_positional (x symB : String) (a d : Rat)
    (lc : Module) (rc : Option Module) :
    Rule.getReplacement
        { ruleType := .OL, predecessorSymbol := "A", symParam := [x],
          left_context := emptySymMod, right_context := emptySymMod,
          condition := none, successor := .single [⟨symB, [.var x]⟩], probs := [] }
        lc ⟨"A", [a]⟩ rc [(x, d)] 0 =
      Except.ok [⟨symB, [d]⟩] := by
  simp [Rule.getReplacement, Rule.isStochastic, evalSuccessor, contextBinding,
        evalParams, pyDict, dictGet, Expr.evaluate, List.lookup]

/-
Claim C4.  In isApplicable the Python conjunctions run left to right and
start with checkCondition, so a 1L or 2L rule has its condition evaluated
before the context-symbol comparison; a rule whose context symbol differs
is not skipped silently when the condition itself raises.
-/

/-- A left-context rule whose condition references the unbound name z. -/
def c4Rule : Rule :=
  { ruleType := .L1L, predecessorSymbol := "A", symParam := [],
    left_context := ⟨"B", []⟩, right_context := emptySymMod,
    condition := some (.var "z"), successor := .single [], probs := [] }

/-- Claim C4 counterexample: the rule's left pattern symbol B differs from
the located left context C, so the claim says the rule is skipped without
evaluating its condition (isApplicable would be ok false); the code
evaluates the condition first, and its unbound identifier error
propagates. -/
theorem C4_counterexample :
    Rule.isApplicable c4Rule ⟨"C", []⟩ ⟨"A", []⟩ (some emptyModule) =
      Except.error (.undefinedVar "z") ∧
    (Except.error (Err.undefinedVar "z") : Except Err Bool) ≠ Except.ok false := by
  refine ⟨rfl, ?_⟩
  intro h
  simp at h

/-- Claim C4 as amended: after the predecessor symbol matches, the
condition is evaluated before the context-symbol comparison, so whenever
checkCondition fails the failure propagates out of isApplicable — for
every rule kind and regardless of whether the context symbols match. -/
theorem C4_amended_condition_evaluated_before_context (r : Rule)
    (lc mod : Module) (rc : Option Module) (e : Err)
    (hpred : r.predecessorSymbol = mod.symbol)
    (hcond : r.checkCondition lc mod rc = Except.error e) :
    r.isApplicable lc mod rc = Except.error e := by
  unfold Rule.isApplicable
  rw [if_neg (not_not_intro hpred)]
  cases hrt : r.ruleType
  case OL => exact hcond
  case L1L => rw [hcond]; rfl
  case R1L => rw [hcond]; rfl
  case TwoL => rw [hcond]; rfl

/-- Witness for the amended C4: at the concrete rule c4Rule, with left
context C not matching the pattern B, the hypotheses hold and
isApplicable propagates the condition's unbound-identifier error. -/
theorem C4_amended_witness :
    Rule.isApplicable c4Rule ⟨"C", []⟩ ⟨"A", []⟩ (some emptyModule) =
      Except.error (.undefinedVar "z") :=
  C4_amended_condition_evaluated_before_context c4Rule ⟨"C", []⟩ ⟨"A", []⟩
    (some emptyModule) (.undefinedVar "z") rfl rfl

/-
Claim C5.  On an arity mismatch between the formal parameter vector and
the actual parameters, dict(zip(keys, values)) silently truncates to the
shorter list; there is no StructuralError anywhere in the code.  An error
surfaces only if a successor expression references a formal that fell off
the truncated binding, and then it is the expression evaluator's
undefined-variable error.
-/

/-- A context-free rule with two formal parameters x and y whose successor
has the single parameter expression e. -/
def c5Rule (x y symB : String) (e : Expr) : Rule :=
  { ruleType := .OL, predecessorSymbol := "A", symParam := [x, y],
    left_context := emptySymMod, right_context := emptySymMod,
    condition := none, successor := .single [⟨symB, [e]⟩], probs := [] }

/-- Claim C5 counterexample: the rule has two formals x, y but the module
A(1) supplies one actual, yet getReplacement succeeds silently — the
binding is truncated to x alone and the successor expression x evaluates
to 1.  No StructuralError (or any error) is raised. -/
theorem C5_counterexample :
    Rule.getReplacement (c5Rule "x" "y" "B" (.var "x")) emptyModule ⟨"A", [1]⟩
        (some emptyModule) [] 0 =
      Except.ok [⟨"B", [(1 : Rat)]⟩] := by
  rfl

/-- Claim C5 as amended: on an arity mismatch the binding is silently
truncated by zip.  When the successor references only the surviving
formal x, evaluation succeeds with the positional value; when it
references the truncated formal y, the expression evaluator's
undefined-variable error is raised (not a StructuralError, which the code
does not have). -/
theorem C5_amended_truncated_binding (x y symB : String) (a : Rat)
    (lc : Module) (rc : Option Module) (hxy : x ≠ y) :
    Rule.getReplacement (c5Rule x y symB (.var x)) lc ⟨"A", [a]⟩ rc [] 0 =
        Except.ok [⟨symB, [a]⟩] ∧
    Rule.getReplacement (c5Rule x y symB (.var y)) lc ⟨"A", [a]⟩ rc [] 0 =
        Except.error (.undefinedVar y) := by
  have hyx : (y == x) = false := beq_eq_false_iff_ne.mpr (Ne.symm hxy)
  constructor
  · simp [c5Rule, Rule.getReplacement, Rule.isStochastic, evalSuccessor,
          contextBinding, evalParams, pyDict, dictGet, Expr.evaluate, List.lookup]
  · simp [c5Rule, Rule.getReplacement, Rule.isStochastic, evalSuccessor,
          contextBinding, evalParams, pyDict, dictGet, Expr.evaluate, List.lookup, hyx]

/-- Witness for the amended C5 at x, y, B, value 1. -/
theorem C5_amended_witness :
    (("x" : String) ≠ "y") ∧
    (Rule.getReplacement (c5Rule "x" "y" "B" (.var "x")) emptyModule ⟨"A", [1]⟩
        (some emptyModule) [] 0 = Except.ok [⟨"B", [(1 : Rat)]⟩] ∧
     Rule.getReplacement (c5Rule "x" "y" "B" (.var "y")) emptyModule ⟨"A", [1]⟩
        (some emptyModule) [] 0 = Except.error (.undefinedVar "y")) :=
  ⟨by decide,
   C5_amended_truncated_binding "x" "y" "B" 1 emptyModule (some emptyModule) (by decide)⟩

/-
Claim C6.  The code imports the module-level random() and never calls
seed: there is no seed operation anywhere in LSystems.py, so the spec's
seed(u64) contract cannot be exercised.  The theorem below evidences that
the stochastic successor choice is driven entirely by the value random()
happens to return — the source the interface gives the caller no way to
fix.
-/

/-- A stochastic rule with two equally weighted alternatives A and B. -/
def c6Rule : Rule :=
  { ruleType := .OL, predecessorSymbol := "F", symParam := [],
    left_context := emptySymMod, right_context := emptySymMod,
    condition := none, successor := .multi [[⟨"A", []⟩], [⟨"B", []⟩]],
    probs := [1/2, 1/2] }

/-- Claim C6 (code_bug evidence): the stochastic replacement depends on
the value drawn from the unseeded global random source — a draw of 3/10
yields A and a draw of 7/10 yields B — while the code exposes no seed
operation with which a caller could make two derivations draw equal
values. -/
theorem C6_stochastic_choice_depends_on_global_draw :
    Rule.getReplacement c6Rule emptyModule ⟨"F", []⟩ (some emptyModule) [] (3/10) =
        Except.ok [⟨"A", []⟩] ∧
    Rule.getReplacement c6Rule emptyModule ⟨"F", []⟩ (some emptyModule) [] (7/10) =
        Except.ok [⟨"B", []⟩] ∧
    ([⟨"A", []⟩] : List Module) ≠ [⟨"B", []⟩] := by
  have hc1 : chooseIndex c6Rule.probs (3/10) = some 0 := by
    norm_num [c6Rule, chooseIndex, chooseIndexAux]
  have hc2 : chooseIndex c6Rule.probs (7/10) = some 1 := by
    norm_num [c6Rule, chooseIndex, chooseIndexAux]
  refine ⟨?_, ?_, by decide⟩
  · unfold Rule.getReplacement
    rw [hc1]
    rfl
  · unfold Rule.getReplacement
    rw [hc2]
    rfl

/-
Claim C7.  nextGeneration assigns self.word = new_word only after the
whole position loop has completed; an evaluation error raised inside the
loop propagates before that assignment, leaving the word field holding
the prior generation's word.
-/

/-- Claim C7: whenever nextGeneration returns an error, the state carried
out of the call still holds the prior word, so the caller may retry. -/
theorem C7_state_unchanged_on_error (sys : LSystem) (rng : Nat → Rat) (e : Err)
    (h : (nextGeneration sys rng).1 = Except.error e) :
    (nextGeneration sys rng).2.word = sys.word := by
  unfold nextGeneration at h ⊢
  cases hgen : nextGenAux sys.productionRules sys.definitions sys.ignore
      sys.word rng 0 0 sys.word.length with
  | ok w => rw [hgen] at h; simp at h
  | error e2 => rfl

/-- A rule whose condition references the unbound name z, so that every
application of it fails at evaluation time. -/
def c7Rule : Rule :=
  { ruleType := .OL, predecessorSymbol := "A", symParam := [],
    left_context := emptySymMod, right_context := emptySymMod,
    condition := some (.var "z"), successor := .single [], probs := [] }

/-- An L-system whose single position triggers c7Rule's failing condition. -/
def c7Sys : LSystem :=
  ⟨[⟨"A", []⟩], [c7Rule], [], []⟩

/-- Witness for C7: on c7Sys the generation fails with the unbound
identifier z, and the state's word is unchanged. -/
theorem C7_state_unchanged_on_error_witness :
    (nextGeneration c7Sys (fun _ => 0)).1 = Except.error (.undefinedVar "z") ∧
    (nextGeneration c7Sys (fun _ => 0)).2.word = c7Sys.word :=
  ⟨rfl, C7_state_unchanged_on_error c7Sys (fun _ => 0) (.undefinedVar "z") rfl⟩

/-
Claim C9.  Identity fallback: when every rule reports inapplicable at a
position, nextGeneration copies the module unchanged and no error arises.
-/

/-- When every rule's isApplicable returns ok false, the rule-table loop
finds no applicable rule (and raises nothing). -/
theorem findApplicableRule_of_all_false (rules : List Rule) (lc mod : Module)
    (rc : Option Module)
    (h : ∀ r ∈ rules, Rule.isApplicable r lc mod rc = Except.ok false) :
    findApplicableRule rules lc mod rc = Except.ok none := by
  induction rules with
  | nil => rfl
  | cons r rs ih =>
      rw [List.forall_mem_cons] at h
      simp only [findApplicableRule]
      rw [h.1]
      simpa using ih h.2

/-- Claim C9: at a position where no rule is applicable (every rule's
isApplicable is ok false), the engine emits exactly the input module at
that position — the output for the remaining positions is prefixed with
word[i] unchanged — and this is not an error. -/
theorem C9_identity_fallback (rules : List Rule) (defs : List (String × Rat))
    (ignore : List String) (word : List Module) (rng : Nat → Rat) (i k n : Nat)
    (h : ∀ r ∈ rules, Rule.isApplicable r (findLeftContext word i ignore)
          (word.getD i emptyModule) (findRightContext word i ignore) = Except.ok false) :
    nextGenAux rules defs ignore word rng i k (n + 1) =
      Except.map (fun rest => word.getD i emptyModule :: rest)
        (nextGenAux rules defs ignore word rng (i + 1) k n) := by
  have hfind := findApplicableRule_of_all_false rules _ _ _ h
  simp only [nextGenAux]
  rw [hfind]
  cases hrec : nextGenAux rules defs ignore word rng (i + 1) k n with
  | ok w => simp [Except.map]
  | error e => simp [Except.map]

/-- A rule whose predecessor Y matches nothing in the word X. -/
def c9Rule : Rule :=
  { ruleType := .OL, predecessorSymbol := "Y", symParam := [],
    left_context := emptySymMod, right_context := emptySymMod,
    condition := none, successor := .single [⟨"Z", []⟩], probs := [] }

/-- The one-module word X. -/
def c9Word : List Module :=
  [⟨"X", []⟩]

/-- Witness for C9: on the word X with the single rule Y?Z, no rule is
applicable at position 0 and the position contributes X unchanged. -/
theorem C9_identity_fallback_witness :
    (∀ r ∈ [c9Rule], Rule.isApplicable r (findLeftContext c9Word 0 [])
        (c9Word.getD 0 emptyModule) (findRightContext c9Word 0 []) = Except.ok false) ∧
    nextGenAux [c9Rule] [] [] c9Word (fun _ => 0) 0 0 1 =
      Except.map (fun rest => c9Word.getD 0 emptyModule :: rest)
        (nextGenAux [c9Rule] [] [] c9Word (fun _ => 0) 1 0 0) := by
  have hh : ∀ r ∈ [c9Rule], Rule.isApplicable r (findLeftContext c9Word 0 [])
      (c9Word.getD 0 emptyModule) (findRightContext c9Word 0 []) = Except.ok false := by
    intro r hr
    rw [List.mem_singleton] at hr
    subst hr
    rfl
  exact ⟨hh, C9_identity_fallback [c9Rule] [] [] c9Word (fun _ => 0) 0 0 0 hh⟩

/-
Claim C10.  Every non-empty module the context locators return was
returned from inside the scan loop, whose guards have already ruled out
an ignored symbol and the two bracket symbols.
-/

/-- Invariant of the left-context scan loop: a returned module with a
non-empty symbol is neither bracket and is not ignored. -/
theorem findLeftAux_sound (tree : List Module) (ignore : List String) :
    ∀ (c closes opens : Nat) (fp : Bool) (m : Module),
      findLeftAux tree ignore c closes opens fp = m → m.symbol ≠ "" →
      m.symbol ≠ "[" ∧ m.symbol ≠ "]" ∧ m.symbol ∉ ignore := by
  intro c
  induction c with
  | zero =>
      intro closes opens fp m h hne
      simp only [findLeftAux] at h
      subst h
      exact absurd rfl hne
  | succ c ih =>
      intro closes opens fp m h hne
      simp only [findLeftAux] at h
      split_ifs at h <;>
        first
          | exact ih _ _ _ m h hne
          | (subst h; exact ⟨by assumption, by assumption, by assumption⟩)

/-- Invariant of the right-context scan loop: a returned module with a
non-empty symbol is neither bracket and is not ignored. -/
theorem findRightAux_sound (tree : List Module) (ignore : List String) :
    ∀ (n i closes opens : Nat) (fp : Bool) (m : Module),
      findRightAux tree ignore n i closes opens fp = some m → m.symbol ≠ "" →
      m.symbol ≠ "[" ∧ m.symbol ≠ "]" ∧ m.symbol ∉ ignore := by
  intro n
  induction n with
  | zero =>
      intro i closes opens fp m h _
      simp only [findRightAux] at h
      exact absurd h (by simp)
  | succ n ih =>
      intro i closes opens fp m h hne
      simp only [findRightAux] at h
      split_ifs at h <;>
        first
          | exact ih _ _ _ _ m h hne
          | (rw [Option.some_inj] at h; subst h; exact absurd rfl hne)
          | (rw [Option.some_inj] at h; subst h;
             exact ⟨by assumption, by assumption, by assumption⟩)

/-- Claim C10: for every word, position and ignore set, a non-empty
module returned by findLeftContext or findRightContext has a symbol that
is not an opening bracket, not a closing bracket, and not a member of the
ignore set. -/
theorem C10_context_never_bracket_or_ignored (tree : List Module)
    (start : Nat) (ignore : List String) :
    (∀ m : Module, findLeftContext tree start ignore = m → m.symbol ≠ "" →
        m.symbol ≠ "[" ∧ m.symbol ≠ "]" ∧ m.symbol ∉ ignore) ∧
    (∀ m : Module, findRightContext tree start ignore = some m → m.symbol ≠ "" →
        m.symbol ≠ "[" ∧ m.symbol ≠ "]" ∧ m.symbol ∉ ignore) := by
  constructor
  · intro m h hne
    exact findLeftAux_sound tree ignore start 0 0 true m h hne
  · intro m h hne
    unfold findRightContext at h
    split_ifs at h with hlen
    · exact findRightAux_sound tree ignore _ _ 0 0 true m h hne
    · rw [Option.some_inj] at h
      subst h
      exact absurd rfl hne

/-- Witness for C10: on the word A B at position 0 with ignore set
containing x, the right context is the non-empty module B, whose symbol
is neither bracket and is not ignored. -/
theorem C10_context_never_bracket_or_ignored_witness :
    (findRightContext [⟨"A", []⟩, ⟨"B", []⟩] 0 ["x"] = some ⟨"B", []⟩) ∧
    (("B" : String) ≠ "[" ∧ ("B" : String) ≠ "]" ∧ ("B" : String) ∉ (["x"] : List String)) :=
  ⟨rfl, (C10_context_never_bracket_or_ignored [⟨"A", []⟩, ⟨"B", []⟩] 0 ["x"]).2
    ⟨"B", []⟩ rfl (by decide)⟩

end LSys
